import Mathlib

/-!
Verification development for `fix_srt.py`, a tool that repairs noisy,
OCR-derived SRT subtitle tracks.

Each Python function of the core pipeline is embedded as an executable Lean
definition operating on the same data:

* `clean_text`, `is_garbage`, `normalized_levenshtein_distance`, `is_similar`,
  `guess_sentence`, `load_srt`, `apply_actions`, `process_subtitles` mirror the
  functions of the same names in `fix_srt.py`.
* Python floats are modelled by `ℚ` (all the arithmetic involved is exact on
  the values of interest).
* `re.compile`d deny patterns are modelled as opaque-valued match predicates
  `String → Bool` (the regex engine is an external library; only the Boolean
  verdict of `d.search(text)` is consumed).
* Mutable dictionaries are modelled by immutable records; the in-place
  mutation of `prev_subtitle` inside the already-built output list is
  modelled by tracking the index of `prev_subtitle` in that list and using
  `List.set`.
-/

namespace FixSrt

/-- Python `str.isdigit()` on the texts that occur here: the string is
nonempty and every character is a digit. -/
def py_isdigit (s : String) : Bool :=
  !s.data.isEmpty && s.data.all Char.isDigit

/-- Python `str.strip()`: remove leading and trailing whitespace. -/
def py_strip (s : String) : String :=
  ⟨((s.data.dropWhile Char.isWhitespace).reverse.dropWhile Char.isWhitespace).reverse⟩

/-- One Python `str.replace(pat, "")` pass for a two-character pattern
`[c1, c2]`: scan left to right, removing non-overlapping occurrences. -/
def stripPair (c1 c2 : Char) : List Char → List Char
  | [] => []
  | [a] => [a]
  | a :: b :: rest =>
    if a = c1 ∧ b = c2 then stripPair c1 c2 rest
    else a :: stripPair c1 c2 (b :: rest)

/-- `clean_text` from `fix_srt.py`: `text.replace("\\n", "").replace("\\t", "")`
(the patterns are the two-character sequences backslash-n and backslash-t). -/
def clean_text (text : String) : String :=
  ⟨stripPair '\\' 't' (stripPair '\\' 'n' text.data)⟩

/-- `is_garbage` from `fix_srt.py`.  A deny pattern `d` is modelled as the
predicate `fun t => d.search(t) is not None`. -/
def is_garbage (text : String) (delete_list : List (String → Bool)) : Bool :=
  delete_list.any (fun d => d text)
    || (decide (text.length < 3) || py_isdigit text || (py_strip text == "1"))

/-- Unit-cost Levenshtein distance with explicit structural fuel; with fuel at
least `xs.length + ys.length` this is the textbook edit distance, which is what
the Python `Levenshtein.distance` library call computes. -/
def levF : Nat → List Char → List Char → Nat
  | _, [], ys => ys.length
  | _, x :: xs, [] => (x :: xs).length
  | 0, _ :: _, _ :: _ => 0
  | f + 1, x :: xs, y :: ys =>
    if x = y then levF f xs ys
    else 1 + min (levF f xs ys) (min (levF f (x :: xs) ys) (levF f xs (y :: ys)))

/-- `Levenshtein.distance` of the Python code: edit distance between the two
character lists. -/
def lev (xs ys : List Char) : Nat := levF (xs.length + ys.length) xs ys

/-- `normalized_levenshtein_distance` from `fix_srt.py`: the Levenshtein
distance divided by the longer length (`len_max`), and `0` when both strings
are empty. -/
def normalized_levenshtein_distance (str1 str2 : String) : ℚ :=
  if max str1.length str2.length = 0 then 0
  else (lev str1.data str2.data : ℚ) / ((max str1.length str2.length : Nat) : ℚ)

/-- `SIMILARITY_CUTOFF` from `fix_srt.py` (the module-level default). -/
def SIMILARITY_CUTOFF : ℚ := 1 / 2

/-- `is_similar` from `fix_srt.py`: the normalized distance is at most the
cutoff. -/
def is_similar (prev_text current_text : String) (cutoff : ℚ) : Bool :=
  decide (normalized_levenshtein_distance prev_text current_text ≤ cutoff)

/-- Length of a longest common subsequence, with explicit structural fuel
(adequate whenever the fuel is at least `xs.length + ys.length`). -/
def lcsF : Nat → List Char → List Char → Nat
  | _, [], _ => 0
  | _, _ :: _, [] => 0
  | 0, _ :: _, _ :: _ => 0
  | f + 1, x :: xs, y :: ys =>
    if x = y then 1 + lcsF f xs ys
    else max (lcsF f (x :: xs) ys) (lcsF f xs (y :: ys))

/-- Longest-common-subsequence length of two character lists. -/
def lcs (xs ys : List Char) : Nat := lcsF (xs.length + ys.length) xs ys

/-- Python 3 `round` to an integer: nearest integer, ties to even. -/
def pyround (q : ℚ) : ℤ :=
  if q - ⌊q⌋ < 1 / 2 then ⌊q⌋
  else if 1 / 2 < q - ⌊q⌋ then ⌊q⌋ + 1
  else if ⌊q⌋ % 2 = 0 then ⌊q⌋ else ⌊q⌋ + 1

/-- `fuzz.ratio` as used by `guess_sentence` (fuzzywuzzy backed by
python-Levenshtein): `int(round(100 * (lensum - ldist) / lensum))` where
`ldist` is the edit distance with substitution cost two, which equals
`lensum - 2 * lcs`; the ratio of two empty strings is defined as `1.0`. -/
def fuzz_ratio (s1 s2 : String) : ℤ :=
  if s1.length + s2.length = 0 then 100
  else
    pyround (100 *
      ((((s1.length + s2.length : Nat) : ℚ)
          - (((s1.length + s2.length - 2 * lcs s1.data s2.data : Nat)) : ℚ))
        / ((s1.length + s2.length : Nat) : ℚ)))

/-- The inner loop of `guess_sentence`: the sum of `fuzz.ratio(sentence1,
sentence2)` over all positions `j ≠ i`. -/
def similarity_sum (sentences : List String) (i : Nat) (sentence1 : String) : ℤ :=
  sentences.enum.foldl
    (fun s q => if i ≠ q.1 then s + fuzz_ratio sentence1 q.2 else s) 0

/-- `average_similarity` of `guess_sentence`: the similarity sum divided by
`len(sentences) - 1`.  (For a singleton list Python raises
`ZeroDivisionError`; in `ℚ` the division yields `0`.  `guess_sentence` is only
ever invoked on run buffers of length at least two.) -/
def average_similarity (sentences : List String) (i : Nat) (sentence1 : String) : ℚ :=
  (similarity_sum sentences i sentence1 : ℚ) / ((sentences.length : ℚ) - 1)

/-- The average similarity of one enumerated candidate `(i, sentence1)`. -/
def candidate_average (sentences : List String) (p : Nat × String) : ℚ :=
  average_similarity sentences p.1 p.2

/-- One step of the `guess_sentence` scan: keep the candidate on a strictly
larger average similarity (`average_similarity > max_similarity`). -/
def gs_step (sentences : List String) (acc : Option String × ℚ) (p : Nat × String) :
    Option String × ℚ :=
  if acc.2 < candidate_average sentences p
  then (some p.2, candidate_average sentences p) else acc

/-- `guess_sentence` from `fix_srt.py`: starting from
`original_sentence = None, max_similarity = 0`, scan the candidates in order
and return the final `original_sentence`. -/
def guess_sentence (sentences : List String) : Option String :=
  (sentences.enum.foldl (gs_step sentences) ((none : Option String), (0 : ℚ))).1

/-- A subtitle record as built by `load_srt` and threaded through the whole
pipeline: the Python dict
`{'start-time': ..., 'end-time': ..., 'text': ..., 'action': ...}`. -/
structure Subtitle where
  start_time : String
  end_time : String
  text : String
  action : String
deriving DecidableEq

/-- `get_srt_entry` from `fix_srt.py`: one serialized SRT block. -/
def get_srt_entry (index : Nat) (start_time end_time text : String) : String :=
  toString index ++ "\n" ++ start_time ++ " --> " ++ end_time ++ "\n" ++ text ++ "\n\n"

/-- Python `time_range.split("-->")`: split a character list at every
(leftmost-first, non-overlapping) occurrence of the three characters of the
arrow token. -/
def splitArrowGo : List Char → List (List Char)
  | [] => [[]]
  | '-' :: '-' :: '>' :: rest => [] :: splitArrowGo rest
  | c :: rest =>
    match splitArrowGo rest with
    | [] => [[c]]
    | p :: ps => (c :: p) :: ps

/-- The control state of the `load_srt` line scan: scanning for an index line;
just saw an index line and expecting the time-range line next; or inside the
text lines of a block whose time range has been parsed. -/
inductive LoadMode where
  | scan : LoadMode
  | expectTime : LoadMode
  | body : String → String → List String → LoadMode

/-- The `while` loop of `load_srt`, phrased as a state machine over the
remaining lines.  `none` models the Python exceptions on malformed input: an
`IndexError` when an index line is the final line, and a `ValueError` when the
time-range line contains more than one arrow token. -/
def load_go : LoadMode → List String → Option (List Subtitle)
  | .scan, [] => some []
  | .scan, l :: ls =>
    if py_isdigit l then load_go .expectTime ls else load_go .scan ls
  | .expectTime, [] => none
  | .expectTime, tr :: ls =>
    if (splitArrowGo tr.data).length = 1 then load_go .scan ls
    else if (splitArrowGo tr.data).length ≠ 2 then none
    else
      load_go
        (.body (py_strip ⟨(splitArrowGo tr.data).getD 0 []⟩)
          (py_strip ⟨(splitArrowGo tr.data).getD 1 []⟩) []) ls
  | .body start_time end_time text, [] =>
    some [⟨start_time, end_time, " ".intercalate text, "do nothing"⟩]
  | .body start_time end_time text, l :: ls =>
    if l ≠ "" then load_go (.body start_time end_time (text ++ [l])) ls
    else
      (load_go .scan ls).map
        (fun subs => ⟨start_time, end_time, " ".intercalate text, "do nothing"⟩ :: subs)

/-- `load_srt` from `fix_srt.py`, applied to the result of `splitlines()` on
the file contents. -/
def load_srt (lines : List String) : Option (List Subtitle) :=
  load_go .scan lines

/-- One row of the actions CSV as read back by `csv.DictReader` in
`apply_actions` (and written by `save_actions`). -/
structure LedgerRow where
  start_time : String
  end_time : String
  action : String
  text : String
deriving DecidableEq

/-- The mutable `current_subtitle` dict of `apply_actions`. -/
structure CurrentSubtitle where
  start_time : String
  end_time : String
  text : String
deriving DecidableEq

/-- One iteration of the `for action in actions` loop of `apply_actions`:
`delete` and `merge` rows are skipped; any other row first flushes the pending
subtitle (when its start time is nonempty) and then becomes the pending
subtitle. -/
def apply_step (acc : List String × CurrentSubtitle) (row : LedgerRow) :
    List String × CurrentSubtitle :=
  if row.action = "delete" then acc
  else if row.action = "merge" then acc
  else
    ((if acc.2.start_time ≠ "" then
        acc.1 ++ [get_srt_entry (acc.1.length + 1) acc.2.start_time acc.2.end_time acc.2.text]
      else acc.1),
      ⟨row.start_time, row.end_time, row.text⟩)

/-- The code after the `for` loop of `apply_actions`: the pending subtitle is
appended unconditionally (same serialization as `get_srt_entry`). -/
def apply_finish (st : List String × CurrentSubtitle) : List String :=
  st.1 ++ [get_srt_entry (st.1.length + 1) st.2.start_time st.2.end_time st.2.text]

/-- `apply_actions` from `fix_srt.py`, from ledger rows to the list of
serialized SRT blocks written to the output file.  Note that the final append
of the pending subtitle is unconditional in the source. -/
def apply_actions (actions : List LedgerRow) : List String :=
  apply_finish
    (actions.foldl apply_step (([] : List String), (⟨"", "", ""⟩ : CurrentSubtitle)))

/-- The state of the `process_subtitles` loop: `ret` is the output list built
so far, `merging`, `merging_list` and `mergins_start_time` are the run
detector's variables of the same names, and `prev` records the position in
`ret` of the Python `prev_subtitle` dict together with its current value
(Python holds a mutable reference into `ret`; the index makes the in-place
`prev_subtitle['action'] = 'merge'` mutation expressible on immutable
lists). -/
structure PState where
  ret : List Subtitle
  merging : Bool
  merging_list : List String
  mergins_start_time : String
  prev : Option (Nat × Subtitle)
deriving DecidableEq

/-- The tail of a `process_subtitles` iteration for a non-garbage record that
did not extend a run: when the record's action is still `do nothing` and a run
is open, close the run — synthesize the consensus record (Python stores
`guess_sentence`'s `None` as a `None` text; it is modelled as `""`, a value
the claims never observe) and insert it immediately before the current record
(`ret.insert(-1, merging_entry)`); otherwise just append the record. -/
def pclose (st : PState) (sub : Subtitle) : PState :=
  if sub.action = "do nothing" ∧ st.merging = true then
    { ret := st.ret ++
        [⟨st.mergins_start_time, sub.end_time, (guess_sentence st.merging_list).getD "", "merge to"⟩,
          sub],
      merging := false, merging_list := [],
      mergins_start_time := st.mergins_start_time,
      prev := some (st.ret.length + 1, sub) }
  else
    { st with ret := st.ret ++ [sub], prev := some (st.ret.length, sub) }

/-- One iteration of the `for subtitle in subtitle_action_list` loop of
`process_subtitles`. -/
def pstep (delete_list : List (String → Bool)) (similarity : ℚ)
    (st : PState) (sub0 : Subtitle) : PState :=
  let sub := { sub0 with text := clean_text sub0.text }
  if is_garbage sub.text delete_list then
    { st with ret := st.ret ++ [{ sub with action := "delete" }] }
  else
    match st.prev with
    | some (pi, p) =>
      if is_similar p.text sub.text similarity then
        if st.merging then
          { ret := st.ret ++ [{ sub with action := "merge" }], merging := true,
            merging_list := st.merging_list ++ [sub.text],
            mergins_start_time := st.mergins_start_time,
            prev := some (st.ret.length, { sub with action := "merge" }) }
        else
          { ret := st.ret.set pi { p with action := "merge" } ++ [{ sub with action := "merge" }],
            merging := true,
            merging_list := (st.merging_list ++ [p.text]) ++ [sub.text],
            mergins_start_time := p.start_time,
            prev := some ((st.ret.set pi { p with action := "merge" }).length,
              { sub with action := "merge" }) }
      else pclose st sub
    | none => pclose st sub

/-- `process_subtitles` from `fix_srt.py`.  Note that the loop body never
closes a run after the final iteration: the function returns `ret` as soon as
the input is exhausted, even when `merging` is still true. -/
def process_subtitles (subtitle_action_list : List Subtitle)
    (delete_list : List (String → Bool)) (similarity : ℚ) : List Subtitle :=
  (subtitle_action_list.foldl (pstep delete_list similarity)
    (⟨[], false, [], "", none⟩ : PState)).ret

/-! ### Helper lemmas about the fuelled Levenshtein distance -/

lemma levF_nil_left (f : Nat) (ys : List Char) : levF f [] ys = ys.length := by
  cases f <;> cases ys <;> rfl

lemma levF_nil_right (f : Nat) (xs : List Char) : levF f xs [] = xs.length := by
  cases f <;> cases xs <;> rfl

lemma levF_succ_cons (f : Nat) (x : Char) (xs : List Char) (y : Char) (ys : List Char) :
    levF (f + 1) (x :: xs) (y :: ys) =
      if x = y then levF f xs ys
      else 1 + min (levF f xs ys) (min (levF f (x :: xs) ys) (levF f xs (y :: ys))) := rfl

lemma levF_symm : ∀ (f : Nat) (xs ys : List Char),
    xs.length + ys.length ≤ f → levF f xs ys = levF f ys xs := by
  intro f
  induction f with
  | zero =>
    intro xs ys h
    match xs, ys with
    | [], ys => rw [levF_nil_left, levF_nil_right]
    | x :: xs, [] => rw [levF_nil_left, levF_nil_right]
    | x :: xs, y :: ys => simp at h
  | succ f ih =>
    intro xs ys h
    match xs, ys with
    | [], ys => rw [levF_nil_left, levF_nil_right]
    | x :: xs, [] => rw [levF_nil_left, levF_nil_right]
    | x :: xs, y :: ys =>
      simp only [List.length_cons] at h
      have h1 : xs.length + ys.length ≤ f := by omega
      have h2 : (x :: xs).length + ys.length ≤ f := by simp only [List.length_cons]; omega
      have h3 : xs.length + (y :: ys).length ≤ f := by simp only [List.length_cons]; omega
      rw [levF_succ_cons, levF_succ_cons]
      by_cases hxy : x = y
      · rw [if_pos hxy, if_pos hxy.symm, ih xs ys h1]
      · rw [if_neg hxy, if_neg (fun e => hxy e.symm),
          ih xs ys h1, ih (x :: xs) ys h2, ih xs (y :: ys) h3]
        omega

lemma levF_le_max : ∀ (f : Nat) (xs ys : List Char),
    xs.length + ys.length ≤ f → levF f xs ys ≤ max xs.length ys.length := by
  intro f
  induction f with
  | zero =>
    intro xs ys h
    match xs, ys with
    | [], ys => rw [levF_nil_left]; omega
    | x :: xs, [] => rw [levF_nil_right]; omega
    | x :: xs, y :: ys => simp at h
  | succ f ih =>
    intro xs ys h
    match xs, ys with
    | [], ys => rw [levF_nil_left]; omega
    | x :: xs, [] => rw [levF_nil_right]; omega
    | x :: xs, y :: ys =>
      simp only [List.length_cons] at h ⊢
      have h1 : xs.length + ys.length ≤ f := by omega
      have h2 : (x :: xs).length + ys.length ≤ f := by simp only [List.length_cons]; omega
      have h3 : xs.length + (y :: ys).length ≤ f := by simp only [List.length_cons]; omega
      have b1 := ih xs ys h1
      have b2 := ih (x :: xs) ys h2
      have b3 := ih xs (y :: ys) h3
      simp only [List.length_cons] at b2 b3
      rw [levF_succ_cons]
      by_cases hxy : x = y
      · rw [if_pos hxy]; omega
      · rw [if_neg hxy]; omega

lemma levF_self : ∀ (f : Nat) (xs : List Char),
    xs.length + xs.length ≤ f → levF f xs xs = 0 := by
  intro f
  induction f with
  | zero =>
    intro xs h
    match xs with
    | [] => rw [levF_nil_left]; rfl
    | x :: xs => simp at h
  | succ f ih =>
    intro xs h
    match xs with
    | [] => rw [levF_nil_left]; rfl
    | x :: xs =>
      simp only [List.length_cons] at h
      rw [levF_succ_cons, if_pos rfl]
      exact ih xs (by omega)

lemma lev_symm (xs ys : List Char) : lev xs ys = lev ys xs := by
  unfold lev
  rw [Nat.add_comm ys.length xs.length]
  exact levF_symm (xs.length + ys.length) xs ys le_rfl

lemma lev_le_max (xs ys : List Char) : lev xs ys ≤ max xs.length ys.length :=
  levF_le_max (xs.length + ys.length) xs ys le_rfl

lemma lev_self (xs : List Char) : lev xs xs = 0 :=
  levF_self (xs.length + xs.length) xs le_rfl

lemma string_length_data (s : String) : s.length = s.data.length := rfl

lemma normalized_levenshtein_distance_self (a : String) :
    normalized_levenshtein_distance a a = 0 := by
  unfold normalized_levenshtein_distance
  split
  · rfl
  · rw [lev_self, Nat.cast_zero, zero_div]

/-! ### Claim theorems: similarity scorer (C8, C10) -/

/-- C8: `normalized_levenshtein_distance` is deterministic and symmetric, its
value is the Levenshtein distance divided by the maximum of the two lengths,
it lies in the interval from 0 to 1, and it is 0 when both strings are empty.
(Determinism is intrinsic: the embedding is a pure function.) -/
theorem c8_similarity_symmetric (a b : String) :
    normalized_levenshtein_distance a b = normalized_levenshtein_distance b a
    ∧ normalized_levenshtein_distance a b
        = (lev a.data b.data : ℚ) / ((max a.length b.length : Nat) : ℚ)
    ∧ 0 ≤ normalized_levenshtein_distance a b
    ∧ normalized_levenshtein_distance a b ≤ 1
    ∧ normalized_levenshtein_distance "" "" = 0 := by
  have hdata : ∀ s : String, s.length = s.data.length := string_length_data
  refine ⟨?_, ?_, ?_, ?_, rfl⟩
  · unfold normalized_levenshtein_distance
    rw [Nat.max_comm a.length b.length, lev_symm a.data b.data]
  · unfold normalized_levenshtein_distance
    split
    · rename_i h
      have ha : a.data.length = 0 := by rw [← hdata]; omega
      have hb : b.data.length = 0 := by rw [← hdata]; omega
      rw [List.length_eq_zero] at ha hb
      rw [ha, hb, h]
      show (0 : ℚ) = (lev [] [] : ℚ) / ((0 : Nat) : ℚ)
      rw [show lev [] [] = 0 from rfl]
      norm_num
    · rfl
  · unfold normalized_levenshtein_distance
    split
    · exact le_refl 0
    · positivity
  · unfold normalized_levenshtein_distance
    split
    · norm_num
    · rename_i h
      have hpos : 0 < max a.length b.length := Nat.pos_of_ne_zero h
      rw [div_le_one (by exact_mod_cast hpos)]
      have := lev_le_max a.data b.data
      rw [← hdata a, ← hdata b] at this
      exact_mod_cast this

/-- C10: `is_similar` is reflexive for every non-negative cutoff, because the
normalized Levenshtein distance of a string to itself is 0. -/
theorem c10_is_similar_refl (a : String) (cutoff : ℚ) (h : 0 ≤ cutoff) :
    is_similar a a cutoff = true := by
  unfold is_similar
  rw [normalized_levenshtein_distance_self]
  exact decide_eq_true h

/-- Witness for C10 at a concrete string and cutoff. -/
theorem c10_is_similar_refl_witness :
    (0 : ℚ) ≤ 1 / 2 ∧ is_similar "subtitle" "subtitle" (1 / 2) = true :=
  ⟨by norm_num, c10_is_similar_refl "subtitle" (1 / 2) (by norm_num)⟩

/-! ### Claim theorems: noise classifier (C6) -/

/-- C6: `is_garbage` returns true exactly when some deny pattern matches, or
the text is shorter than 3 characters, or the text is all digits, or the text
stripped equals "1"; in particular it is true on "1" for every deny list.
(Purity and determinism are intrinsic: the embedding is a function, and the
disjunction captures the first-match short-circuit extensionally.) -/
theorem c6_is_garbage_spec (text : String) (delete_list : List (String → Bool)) :
    (is_garbage text delete_list = true ↔
      (∃ d ∈ delete_list, d text = true) ∨ text.length < 3
        ∨ py_isdigit text = true ∨ py_strip text = "1")
    ∧ is_garbage "1" delete_list = true := by
  constructor
  · simp only [is_garbage, List.any_eq_true, decide_eq_true_eq, Bool.or_eq_true, beq_iff_eq]
    exact or_congr Iff.rfl or_assoc
  · have h3 : decide (("1" : String).length < 3) = true := by decide
    simp [is_garbage, h3]

/-! ### Claim theorems: reconstructor on empty and degenerate ledgers (C3) -/

/-- C3 (code bug): on the empty ledger, and likewise on an all-delete ledger,
`apply_actions` does not produce an empty track — the unconditional final
append emits one degenerate block with empty times and empty text.  The
in-loop flush guards against the empty pending subtitle, the tail flush does
not. -/
theorem c3_empty_ledger_emits_degenerate_entry :
    apply_actions [] = ["1\n --> \n\n\n"]
    ∧ apply_actions [⟨"00:00:01,000", "00:00:02,000", "delete", "noise"⟩] = ["1\n --> \n\n\n"]
    ∧ (["1\n --> \n\n\n"] : List String) ≠ [] := by
  refine ⟨rfl, rfl, by simp⟩

/-! ### Claim theorems: run detector on concrete inputs (C1, C2) -/

/-- C1 (code bug): when the input ends while the detector is still inside a
run — here two similar non-garbage records — no consensus `merge to` record is
synthesized: `process_subtitles` returns only the two records tagged `merge`,
leaving the run unclosed. -/
theorem c1_pending_run_not_closed :
    process_subtitles
      [⟨"00:00:01,000", "00:00:02,000", "Hello", "do nothing"⟩,
        ⟨"00:00:03,000", "00:00:04,000", "Hello", "do nothing"⟩] [] (1 / 2)
    = [⟨"00:00:01,000", "00:00:02,000", "Hello", "merge"⟩,
        ⟨"00:00:03,000", "00:00:04,000", "Hello", "merge"⟩]
    ∧ (process_subtitles
        [⟨"00:00:01,000", "00:00:02,000", "Hello", "do nothing"⟩,
          ⟨"00:00:03,000", "00:00:04,000", "Hello", "do nothing"⟩] [] (1 / 2)).filter
        (fun r => r.action == "merge to") = [] := by
  constructor
  · with_unfolding_all rfl
  · with_unfolding_all rfl

/-- C2 (counterexample): in Scenario A the synthesized consensus record ends
at `"00:00:06,000"`, the end time of the dissimilar successor (record 3) — not
at `"00:00:04,000"`, the end time of the run's final member (record 2) as the
claim states. -/
theorem c2_consensus_end_time_counterexample :
    process_subtitles
      [⟨"00:00:01,000", "00:00:02,000", "Hello", "do nothing"⟩,
        ⟨"00:00:03,000", "00:00:04,000", "Hello", "do nothing"⟩,
        ⟨"00:00:05,000", "00:00:06,000", "World", "do nothing"⟩] [] (3 / 10)
    = [⟨"00:00:01,000", "00:00:02,000", "Hello", "merge"⟩,
        ⟨"00:00:03,000", "00:00:04,000", "Hello", "merge"⟩,
        ⟨"00:00:01,000", "00:00:06,000", "Hello", "merge to"⟩,
        ⟨"00:00:05,000", "00:00:06,000", "World", "do nothing"⟩]
    ∧ ("00:00:06,000" : String) ≠ "00:00:04,000" := by
  constructor
  · with_unfolding_all rfl
  · decide

/-- C2 (amended): when the run detector closes a run on a record `r` that is
non-garbage, not similar to the previous record, and still tagged
`do nothing`, the synthesized consensus record spans from the run's recorded
start time to `r`'s end time (the dissimilar successor's end time, not the
run's final member's), is tagged `merge to`, and is inserted immediately
before `r`; on Scenario A this yields records 1 and 2 tagged `merge`, a
consensus record with text "Hello" spanning record 1's start to record 3's
end, and record 3 tagged `do nothing`. -/
theorem c2_consensus_record_amended :
    (∀ (st : PState) (sub : Subtitle), st.merging = true → sub.action = "do nothing" →
      pclose st sub =
        ⟨st.ret ++
            [⟨st.mergins_start_time, sub.end_time,
                (guess_sentence st.merging_list).getD "", "merge to"⟩, sub],
          false, [], st.mergins_start_time, some (st.ret.length + 1, sub)⟩)
    ∧ process_subtitles
        [⟨"00:00:01,000", "00:00:02,000", "Hello", "do nothing"⟩,
          ⟨"00:00:03,000", "00:00:04,000", "Hello", "do nothing"⟩,
          ⟨"00:00:05,000", "00:00:06,000", "World", "do nothing"⟩] [] (3 / 10)
      = [⟨"00:00:01,000", "00:00:02,000", "Hello", "merge"⟩,
          ⟨"00:00:03,000", "00:00:04,000", "Hello", "merge"⟩,
          ⟨"00:00:01,000", "00:00:06,000", "Hello", "merge to"⟩,
          ⟨"00:00:05,000", "00:00:06,000", "World", "do nothing"⟩] := by
  constructor
  · intro st sub hm ha
    unfold pclose
    rw [if_pos ⟨ha, hm⟩]
  · with_unfolding_all rfl

/-- Witness for C2 (amended): the general close-step conjunct applied at a
concrete state and record. -/
theorem c2_consensus_record_amended_witness :
    pclose (⟨[], true, ["Hello", "Hello"], "00:00:01,000", none⟩ : PState)
        (⟨"00:00:05,000", "00:00:06,000", "World", "do nothing"⟩ : Subtitle)
      = ⟨[⟨"00:00:01,000", "00:00:06,000", "Hello", "merge to"⟩,
          ⟨"00:00:05,000", "00:00:06,000", "World", "do nothing"⟩],
          false, [], "00:00:01,000",
          some (1, ⟨"00:00:05,000", "00:00:06,000", "World", "do nothing"⟩)⟩ := by
  have h := c2_consensus_record_amended.1
    (⟨[], true, ["Hello", "Hello"], "00:00:01,000", none⟩ : PState)
    (⟨"00:00:05,000", "00:00:06,000", "World", "do nothing"⟩ : Subtitle) rfl rfl
  rw [h]
  with_unfolding_all rfl

/-! ### Claim theorems: reconstructor ignores unknown actions (C7) -/

/-- Replace an action value outside the recognized set by `do nothing`. -/
def normalize_action (row : LedgerRow) : LedgerRow :=
  if row.action = "delete" ∨ row.action = "merge"
      ∨ row.action = "merge to" ∨ row.action = "do nothing"
  then row else { row with action := "do nothing" }

lemma apply_step_normalize (acc : List String × CurrentSubtitle) (row : LedgerRow) :
    apply_step acc (normalize_action row) = apply_step acc row := by
  unfold normalize_action
  split
  · rfl
  · rename_i h
    simp only [not_or] at h
    unfold apply_step
    rw [if_neg h.1, if_neg h.2.1]
    simp

/-- C7: the reconstructor treats every action value outside
`{delete, merge, merge to, do nothing}` exactly like `do nothing` — rewriting
all unrecognized actions to `do nothing` leaves the output unchanged — and it
always produces output (a nonempty block list) on every finite ledger.
(Termination is intrinsic: the embedding is a total function.) -/
theorem c7_unknown_action_like_do_nothing (actions : List LedgerRow) :
    apply_actions (actions.map normalize_action) = apply_actions actions
    ∧ apply_actions actions ≠ [] := by
  constructor
  · unfold apply_actions
    rw [List.foldl_map]
    congr 1
    exact List.foldl_ext _ apply_step _ (fun a b _ => apply_step_normalize a b)
  · unfold apply_actions apply_finish
    simp

/-! ### Claim theorems: consensus selector (C4) -/

/-- C4 (counterexample): on the two-element list `["ab", "cd"]`, whose single
pairwise fuzz ratio is 0, `guess_sentence` returns `none` — not a member of
the input list as the claim states. -/
theorem c4_guess_sentence_none_counterexample :
    guess_sentence ["ab", "cd"] = none
    ∧ 2 ≤ (["ab", "cd"] : List String).length := by
  constructor
  · with_unfolding_all rfl
  · decide

/-- Characterization of the `guess_sentence` fold: either no candidate beats
the running maximum and the accumulator survives, or the result is the first
candidate attaining the maximum average similarity, which strictly beats the
initial maximum. -/
lemma gs_foldl_best (sentences : List String) :
    ∀ (l : List (Nat × String)) (acc : Option String × ℚ),
      (l.foldl (gs_step sentences) acc = acc
          ∧ ∀ p ∈ l, candidate_average sentences p ≤ acc.2)
      ∨ (∃ k, k < l.length
          ∧ l.foldl (gs_step sentences) acc
              = (some (l.getD k (0, "")).2, candidate_average sentences (l.getD k (0, "")))
          ∧ acc.2 < candidate_average sentences (l.getD k (0, ""))
          ∧ (∀ j, j < l.length →
              candidate_average sentences (l.getD j (0, ""))
                ≤ candidate_average sentences (l.getD k (0, "")))
          ∧ (∀ j, j < k →
              candidate_average sentences (l.getD j (0, ""))
                < candidate_average sentences (l.getD k (0, "")))) := by
  intro l
  induction l with
  | nil =>
    intro acc
    left
    exact ⟨rfl, by simp⟩
  | cons p l ih =>
    intro acc
    rw [List.foldl_cons]
    by_cases hc : acc.2 < candidate_average sentences p
    · have hstep : gs_step sentences acc p = (some p.2, candidate_average sentences p) := by
        unfold gs_step; rw [if_pos hc]
      rw [hstep]
      rcases ih (some p.2, candidate_average sentences p) with
        ⟨hfold, hall⟩ | ⟨k, hk, hfold, hacc, hmax, hfirst⟩
      · right
        refine ⟨0, by simp, ?_, ?_, ?_, ?_⟩
        · rw [hfold]; rfl
        · simpa using hc
        · intro j hj
          match j with
          | 0 => simp
          | j + 1 =>
            simp only [List.getD_cons_succ, List.getD_cons_zero]
            have hjl : j < l.length := by simp at hj; omega
            have hmem : l.getD j (0, "") ∈ l := by
              rw [List.getD_eq_getElem _ _ hjl]
              exact List.getElem_mem hjl
            simpa using hall (l.getD j (0, "")) hmem
        · intro j hj; omega
      · right
        refine ⟨k + 1, by simpa using hk, ?_, ?_, ?_, ?_⟩
        · rw [hfold]; simp
        · simp only [List.getD_cons_succ]
          exact lt_trans hc (by simpa using hacc)
        · intro j hj
          match j with
          | 0 =>
            simp only [List.getD_cons_succ, List.getD_cons_zero]
            exact le_of_lt (by simpa using hacc)
          | j + 1 =>
            simp only [List.getD_cons_succ]
            exact hmax j (by simp at hj; omega)
        · intro j hj
          match j with
          | 0 =>
            simp only [List.getD_cons_succ, List.getD_cons_zero]
            exact (by simpa using hacc)
          | j + 1 =>
            simp only [List.getD_cons_succ]
            exact hfirst j (by omega)
    · have hstep : gs_step sentences acc p = acc := by
        unfold gs_step; rw [if_neg hc]
      rw [hstep]
      rcases ih acc with ⟨hfold, hall⟩ | ⟨k, hk, hfold, hacc, hmax, hfirst⟩
      · left
        refine ⟨hfold, ?_⟩
        intro q hq
        rcases List.mem_cons.mp hq with h | h
        · rw [h]; exact le_of_not_lt hc
        · exact hall q h
      · right
        refine ⟨k + 1, by simpa using hk, ?_, ?_, ?_, ?_⟩
        · rw [hfold]; simp
        · simp only [List.getD_cons_succ]; exact hacc
        · intro j hj
          match j with
          | 0 =>
            simp only [List.getD_cons_succ, List.getD_cons_zero]
            exact le_trans (le_of_not_lt hc) (le_of_lt hacc)
          | j + 1 =>
            simp only [List.getD_cons_succ]
            exact hmax j (by simp at hj; omega)
        · intro j hj
          match j with
          | 0 =>
            simp only [List.getD_cons_succ, List.getD_cons_zero]
            exact lt_of_le_of_lt (le_of_not_lt hc) hacc
          | j + 1 =>
            simp only [List.getD_cons_succ]
            exact hfirst j (by omega)

lemma enum_getD (l : List String) (k : Nat) (hk : k < l.length) :
    l.enum.getD k (0, "") = (k, l.getD k "") := by
  simp [List.getD_eq_getElem?_getD, List.enum_eq_enumFrom, List.getElem?_enumFrom,
    List.getElem?_eq_getElem hk]

/-- C4 (amended): for every list of at least two texts in which some candidate
has a strictly positive mean pairwise similarity, `guess_sentence` returns the
member with the maximum mean pairwise fuzz-ratio score against every other
candidate, ties resolved by first occurrence (the denominator
`len(sentences) - 1` is nonzero, so no division by zero occurs); for a run of
exactly two members the mean is simply the single pairwise score; but when
every candidate's mean score is 0 it returns `None` instead of a member. -/
theorem c4_guess_sentence_argmax_amended (sentences : List String)
    (_h2 : 2 ≤ sentences.length)
    (hpos : ∃ i, i < sentences.length
        ∧ 0 < average_similarity sentences i (sentences.getD i "")) :
    (∃ i, i < sentences.length
      ∧ guess_sentence sentences = some (sentences.getD i "")
      ∧ (∀ j, j < sentences.length →
          average_similarity sentences j (sentences.getD j "")
            ≤ average_similarity sentences i (sentences.getD i ""))
      ∧ (∀ j, j < i →
          average_similarity sentences j (sentences.getD j "")
            < average_similarity sentences i (sentences.getD i "")))
    ∧ (∀ a b : String, average_similarity [a, b] 0 a = ((fuzz_ratio a b : ℤ) : ℚ)) := by
  refine ⟨?_, ?_⟩
  case refine_2 =>
    intro a b
    show ((similarity_sum [a, b] 0 a : ℤ) : ℚ) / (((2 : Nat) : ℚ) - 1) = _
    have hsum : similarity_sum [a, b] 0 a = fuzz_ratio a b := by
      show ([(0, a), (1, b)].foldl
        (fun s q => if 0 ≠ q.1 then s + fuzz_ratio a q.2 else s) 0) = fuzz_ratio a b
      norm_num
    rw [hsum]
    norm_num
  obtain ⟨i0, hi0, hp0⟩ := hpos
  have hlen : sentences.enum.length = sentences.length := by
    simp [List.enum_eq_enumFrom]
  rcases gs_foldl_best sentences sentences.enum ((none : Option String), (0 : ℚ)) with
    ⟨_, hall⟩ | ⟨k, hk, hfold, _, hmax, hfirst⟩
  · exfalso
    have hmem : (i0, sentences.getD i0 "") ∈ sentences.enum := by
      have : sentences.enum[i0]? = some (i0, sentences.getD i0 "") := by
        simp [List.enum_eq_enumFrom, List.getElem?_enumFrom,
          List.getElem?_eq_getElem hi0, List.getD_eq_getElem _ _ hi0]
      exact List.getElem?_mem this
    have := hall (i0, sentences.getD i0 "") hmem
    have hcand : candidate_average sentences (i0, sentences.getD i0 "")
        = average_similarity sentences i0 (sentences.getD i0 "") := rfl
    rw [hcand] at this
    exact absurd (lt_of_lt_of_le hp0 this) (by norm_num)
  · have hk' : k < sentences.length := by rwa [hlen] at hk
    refine ⟨k, hk', ?_, ?_, ?_⟩
    · unfold guess_sentence
      rw [hfold, enum_getD sentences k hk']
    · intro j hj
      have := hmax j (by rwa [hlen])
      rwa [enum_getD sentences j hj, enum_getD sentences k hk'] at this
    · intro j hj
      have hjlen : j < sentences.length := lt_trans hj hk'
      have := hfirst j hj
      rwa [enum_getD sentences j hjlen, enum_getD sentences k hk'] at this

/-- Witness for C4 (amended) on the list with two identical texts: the first
occurrence wins the tie. -/
theorem c4_guess_sentence_argmax_amended_witness :
    guess_sentence ["Hello", "Hello"] = some "Hello" := by
  obtain ⟨⟨i, hi, heq, _, _⟩, _⟩ :=
    c4_guess_sentence_argmax_amended ["Hello", "Hello"] (by decide)
      ⟨0, by decide, by with_unfolding_all decide⟩
  match i, hi, heq with
  | 0, _, heq => exact heq
  | 1, _, heq => exact heq

/-! ### Claim theorems: round trip (C5) -/

/-- The ledger row of a parsed record with its action forced to
`do nothing` (the projection `save_actions` writes, column order
`start_time, end_time, action, text`). -/
def ledger_row_do_nothing (r : Subtitle) : LedgerRow :=
  ⟨r.start_time, r.end_time, "do nothing", r.text⟩

lemma apply_fold_do_nothing :
    ∀ (recs : List Subtitle) (srt : List String) (cur : CurrentSubtitle),
      cur.start_time ≠ "" → (∀ r ∈ recs, r.start_time ≠ "") →
      apply_finish
          (recs.foldl (fun acc r => apply_step acc (ledger_row_do_nothing r)) (srt, cur))
        = srt ++ get_srt_entry (srt.length + 1) cur.start_time cur.end_time cur.text
            :: (List.enumFrom (srt.length + 2) recs).map
                (fun p => get_srt_entry p.1 p.2.start_time p.2.end_time p.2.text) := by
  intro recs
  induction recs with
  | nil =>
    intro srt cur hc _
    simp [apply_finish]
  | cons r recs ih =>
    intro srt cur hc hall
    rw [List.foldl_cons]
    have hstep : apply_step (srt, cur) (ledger_row_do_nothing r)
        = (srt ++ [get_srt_entry (srt.length + 1) cur.start_time cur.end_time cur.text],
            (⟨r.start_time, r.end_time, r.text⟩ : CurrentSubtitle)) := by
      simp [apply_step, ledger_row_do_nothing, hc]
    rw [hstep]
    rw [ih (srt ++ [get_srt_entry (srt.length + 1) cur.start_time cur.end_time cur.text])
          (⟨r.start_time, r.end_time, r.text⟩ : CurrentSubtitle)
          (hall r (List.mem_cons_self r recs))
          (fun q hq => hall q (List.mem_cons_of_mem r hq))]
    simp [List.enumFrom_cons, List.length_append, Nat.add_assoc]

/-- C5: parsing a well-formed track (the parse succeeds, yields at least one
record, and every record has a nonempty start time) and reconstructing it with
every action forced to `do nothing` yields exactly the parsed records' start
times, end times and texts, serialized with indices renumbered densely from
1. -/
theorem c5_round_trip (lines : List String) (recs : List Subtitle)
    (hload : load_srt lines = some recs) (hne : recs ≠ [])
    (hstart : ∀ r ∈ recs, r.start_time ≠ "") :
    apply_actions (recs.map ledger_row_do_nothing)
      = (List.enumFrom 1 recs).map
          (fun p => get_srt_entry p.1 p.2.start_time p.2.end_time p.2.text) := by
  match recs, hne with
  | r :: rest, _ =>
    unfold apply_actions
    rw [List.foldl_map, List.foldl_cons]
    have hstep0 : apply_step (([] : List String), (⟨"", "", ""⟩ : CurrentSubtitle))
          (ledger_row_do_nothing r)
        = (([] : List String), (⟨r.start_time, r.end_time, r.text⟩ : CurrentSubtitle)) := by
      simp [apply_step, ledger_row_do_nothing]
    rw [hstep0]
    rw [apply_fold_do_nothing rest [] (⟨r.start_time, r.end_time, r.text⟩ : CurrentSubtitle)
          (hstart r (by simp)) (fun q hq => hstart q (by simp [hq]))]
    simp [List.enumFrom_cons]

/-- Witness for C5 on a concrete two-block track. -/
theorem c5_round_trip_witness :
    apply_actions
        ([⟨"00:00:01,000", "00:00:02,000", "Hello", "do nothing"⟩,
          ⟨"00:00:03,000", "00:00:04,000", "World", "do nothing"⟩].map ledger_row_do_nothing)
      = (List.enumFrom 1
          [(⟨"00:00:01,000", "00:00:02,000", "Hello", "do nothing"⟩ : Subtitle),
            ⟨"00:00:03,000", "00:00:04,000", "World", "do nothing"⟩]).map
          (fun p => get_srt_entry p.1 p.2.start_time p.2.end_time p.2.text) :=
  c5_round_trip
    ["1", "00:00:01,000 --> 00:00:02,000", "Hello", "",
      "2", "00:00:03,000 --> 00:00:04,000", "World"]
    [⟨"00:00:01,000", "00:00:02,000", "Hello", "do nothing"⟩,
      ⟨"00:00:03,000", "00:00:04,000", "World", "do nothing"⟩]
    (by decide) (by decide) (by decide)

/-! ### Claim theorems: run-detector record preservation (C9) -/

/-- The time-and-text projection of a record (everything except the mutable
`action` field). -/
def proj3 (r : Subtitle) : String × String × String :=
  (r.start_time, r.end_time, r.text)

lemma filter_map_set {β : Type} (p : Subtitle → Bool) (f : Subtitle → β) :
    ∀ (l : List Subtitle) (i : Nat) (a b : Subtitle),
      l[i]? = some a → p a = p b → (p a = true → f a = f b) →
      ((l.set i b).filter p).map f = (l.filter p).map f := by
  intro l
  induction l with
  | nil => intro i a b h _ _; simp at h
  | cons x l ih =>
    intro i a b h hp hf
    match i with
    | 0 =>
      rw [List.getElem?_cons_zero] at h
      injection h with h
      subst h
      rw [List.set_cons_zero, List.filter_cons, List.filter_cons, ← hp]
      cases hpx : p x
      · simp
      · simp [hf hpx]
    | i + 1 =>
      rw [List.getElem?_cons_succ] at h
      have hrec := ih i a b h hp hf
      rw [List.set_cons_succ, List.filter_cons, List.filter_cons]
      cases p x <;> simp [hrec]

/-- The loop invariant of `process_subtitles`: the non-consensus records of
`ret` project (in order) to the processed input records' times and cleaned
texts; the length of `ret` is the number of processed records plus the number
of synthesized consensus records; and `prev` points at its record inside
`ret`, which is never a consensus record. -/
def RInv (st : PState) (acc : List (String × String × String)) : Prop :=
  ((st.ret.filter (fun r => !(r.action == "merge to"))).map proj3 = acc)
  ∧ st.ret.length = acc.length + (st.ret.filter (fun r => r.action == "merge to")).length
  ∧ ∀ pip : Nat × Subtitle, st.prev = some pip →
      st.ret[pip.1]? = some pip.2 ∧ pip.2.action ≠ "merge to"

lemma pclose_inv (st : PState) (acc : List (String × String × String)) (s : Subtitle)
    (hInv : RInv st acc) (hs : s.action = "do nothing") :
    RInv (pclose st s) (acc ++ [(s.start_time, s.end_time, s.text)]) := by
  obtain ⟨hA, hB, hC⟩ := hInv
  have hsm : ¬ s.action = "merge to" := by rw [hs]; decide
  have hfs : (fun r => !(r.action == "merge to")) s = true := by
    simp [hs]
  unfold pclose
  by_cases hm : st.merging = true
  · rw [if_pos ⟨hs, hm⟩]
    refine ⟨?_, ?_, ?_⟩
    · rw [List.filter_append, List.map_append, hA]
      simp [List.filter_cons, proj3, hsm]
    · simp only [List.length_append, List.filter_append, List.filter_cons]
      simp [hsm, hB]
      try omega
    · intro pip hp
      simp only at hp
      injection hp with hp
      subst hp
      refine ⟨?_, hsm⟩
      rw [List.getElem?_append_right (by omega)]
      simp
  · rw [if_neg (fun hand => hm hand.2)]
    refine ⟨?_, ?_, ?_⟩
    · rw [List.filter_append, List.map_append, hA]
      simp [List.filter_cons, proj3, hsm]
    · simp only [List.length_append, List.filter_append, List.filter_cons]
      simp [hsm, hB]
      try omega
    · intro pip hp
      simp only at hp
      injection hp with hp
      subst hp
      exact ⟨List.getElem?_concat_length st.ret s, hsm⟩

lemma pstep_inv (dl : List (String → Bool)) (sim : ℚ) (st : PState)
    (acc : List (String × String × String)) (sub0 : Subtitle)
    (hInv : RInv st acc) (hact : sub0.action = "do nothing") :
    RInv (pstep dl sim st sub0)
      (acc ++ [(sub0.start_time, sub0.end_time, clean_text sub0.text)]) := by
  obtain ⟨hA, hB, hC⟩ := hInv
  unfold pstep
  simp only []
  by_cases hg : is_garbage (clean_text sub0.text) dl = true
  · rw [if_pos hg]
    refine ⟨?_, ?_, ?_⟩
    · rw [List.filter_append, List.map_append, hA]
      simp [List.filter_cons, proj3]
    · simp only [List.length_append, List.filter_append, List.filter_cons]
      simp [hB]
      try omega
    · intro pip hp
      obtain ⟨h1, h2⟩ := hC pip hp
      have hlt : pip.1 < st.ret.length := by
        rcases List.getElem?_eq_some.mp h1 with ⟨hh, _⟩
        exact hh
      exact ⟨by rw [List.getElem?_append_left hlt]; exact h1, h2⟩
  · rw [if_neg hg]
    cases hprev : st.prev with
    | none =>
      exact pclose_inv st acc { sub0 with text := clean_text sub0.text } ⟨hA, hB, hC⟩ hact
    | some pip =>
      obtain ⟨pi, p⟩ := pip
      obtain ⟨hret, hpa⟩ := hC (pi, p) hprev
      dsimp only at hret hpa ⊢
      by_cases hsim : is_similar p.text (clean_text sub0.text) sim = true
      · rw [if_pos hsim]
        by_cases hm : st.merging
        · rw [if_pos hm]
          refine ⟨?_, ?_, ?_⟩
          · rw [List.filter_append, List.map_append, hA]
            simp [List.filter_cons, proj3]
          · simp only [List.length_append, List.filter_append, List.filter_cons]
            simp [hB]
            try omega
          · intro pip2 hp2
            simp only at hp2
            injection hp2 with hp2
            subst hp2
            refine ⟨List.getElem?_concat_length _ _, ?_⟩
            show ("merge" : String) ≠ "merge to"
            decide
        · rw [if_neg hm]
          have hset := filter_map_set (fun r => !(r.action == "merge to")) proj3
            st.ret pi p { p with action := "merge" } hret (by simp [hpa]) (fun hcon => rfl)
          have hsetc := filter_map_set (fun r => r.action == "merge to") id
            st.ret pi p { p with action := "merge" } hret (by simp [hpa])
            (fun hcon => absurd hcon (by simp [hpa]))
          simp only [List.map_id] at hsetc
          refine ⟨?_, ?_, ?_⟩
          · rw [List.filter_append, List.map_append, hset, hA]
            simp [List.filter_cons, proj3]
          · simp only [List.length_append, List.filter_append, List.filter_cons, List.length_set]
            simp [hsetc, hB]
            try omega
          · intro pip2 hp2
            simp only at hp2
            injection hp2 with hp2
            subst hp2
            refine ⟨List.getElem?_concat_length _ _, ?_⟩
            show ("merge" : String) ≠ "merge to"
            decide
      · rw [if_neg hsim]
        exact pclose_inv st acc { sub0 with text := clean_text sub0.text } ⟨hA, hB, hC⟩ hact

lemma process_inv (dl : List (String → Bool)) (sim : ℚ) :
    ∀ (subs : List Subtitle) (st : PState) (acc : List (String × String × String)),
      RInv st acc → (∀ r ∈ subs, r.action = "do nothing") →
      RInv (subs.foldl (pstep dl sim) st)
        (acc ++ subs.map (fun r => (r.start_time, r.end_time, clean_text r.text))) := by
  intro subs
  induction subs with
  | nil => intro st acc h _; simpa using h
  | cons s subs ih =>
    intro st acc h hall
    rw [List.foldl_cons, List.map_cons]
    have h1 := pstep_inv dl sim st acc s h (hall s (by simp))
    have h2 := ih (pstep dl sim st s)
      (acc ++ [(s.start_time, s.end_time, clean_text s.text)]) h1
      (fun r hr => hall r (by simp [hr]))
    simpa [List.append_assoc] using h2

/-- C9: every input record of `process_subtitles` appears in the output
exactly once and in its original relative order — filtering the synthesized
`merge to` consensus records out of the output recovers precisely the input
records' times and cleaned texts, in order — and the output length is the
input length plus the number of synthesized consensus records. -/
theorem c9_every_record_preserved (subs : List Subtitle) (dl : List (String → Bool))
    (sim : ℚ) (h : ∀ r ∈ subs, r.action = "do nothing") :
    ((process_subtitles subs dl sim).filter (fun r => !(r.action == "merge to"))).map proj3
        = subs.map (fun r => (r.start_time, r.end_time, clean_text r.text))
    ∧ (process_subtitles subs dl sim).length
        = subs.length
          + ((process_subtitles subs dl sim).filter (fun r => r.action == "merge to")).length := by
  have h0 : RInv (⟨[], false, [], "", none⟩ : PState) [] := by
    refine ⟨rfl, rfl, ?_⟩
    intro pip hp
    simp at hp
  obtain ⟨hA, hB, _⟩ :=
    process_inv dl sim subs (⟨[], false, [], "", none⟩ : PState) [] h0 h
  unfold process_subtitles
  constructor
  · simpa using hA
  · simpa using hB

/-- Witness for C9 on Scenario A (a run of two plus a dissimilar record). -/
theorem c9_every_record_preserved_witness :
    ((process_subtitles
        [⟨"00:00:01,000", "00:00:02,000", "Hello", "do nothing"⟩,
          ⟨"00:00:03,000", "00:00:04,000", "Hello", "do nothing"⟩,
          ⟨"00:00:05,000", "00:00:06,000", "World", "do nothing"⟩] [] (3 / 10)).filter
        (fun r => !(r.action == "merge to"))).map proj3
      = [⟨"00:00:01,000", "00:00:02,000", "Hello", "do nothing"⟩,
          ⟨"00:00:03,000", "00:00:04,000", "Hello", "do nothing"⟩,
          (⟨"00:00:05,000", "00:00:06,000", "World", "do nothing"⟩ : Subtitle)].map
          (fun r => (r.start_time, r.end_time, clean_text r.text)) :=
  (c9_every_record_preserved
    [⟨"00:00:01,000", "00:00:02,000", "Hello", "do nothing"⟩,
      ⟨"00:00:03,000", "00:00:04,000", "Hello", "do nothing"⟩,
      ⟨"00:00:05,000", "00:00:06,000", "World", "do nothing"⟩] [] (3 / 10)
    (by decide)).1

end FixSrt
